import Mathlib

/-!
Verification of the NaviSafe route-planning application.

The development shallowly embeds the data model and the algorithmic parts of
the application: the hazard proximity scorers of the map components (three
generations of the component are present in the sources), the route ordering,
the login check of the auth context, the coordinate-entry validation, the
nearby-spot check of the hazard reporting flow, the cumulative stop-distance
computation, and the fallback construction of the safety briefing.

JavaScript numbers are modelled by rationals wherever the code only compares
and adds them; the great-circle distance function `haversineDistance` is
imported by the components from a utility module that is not among the
provided sources, so the scorers are embedded parametrically in the distance
function, and a real-valued haversine formula is modelled separately from the
specification for its algebraic properties.
-/

namespace NaviSafe

/-- A geographic point, as the `{ lat, lon }` records the components build
before calling the distance function. -/
structure Coord where
  lat : ℚ
  lon : ℚ
deriving DecidableEq, Repr

/-- Risk level of a black spot; the data schema restricts it to
`'High' | 'Medium'`. -/
inductive RiskLevel where
  | High
  | Medium
deriving DecidableEq, Repr

/-- A black spot document, with the fields the components read:
`id`, `lat`, `lng`, `risk_level`, `accident_history`, `report_count`. -/
structure BlackSpot where
  id : String
  lat : ℚ
  lng : ℚ
  risk_level : RiskLevel
  accident_history : String
  report_count : ℕ
deriving DecidableEq, Repr

/-- The `{ lat: spot.lat, lon: spot.lng }` record the scorers pass to the
distance function. -/
def spotCoord (s : BlackSpot) : Coord :=
  ⟨s.lat, s.lng⟩

/-- The distance function used by the components. `haversineDistance` lives
in the `@/lib/utils` module, which is not among the provided sources, so the
embeddings take it as a parameter. -/
abbrev Distance := Coord → Coord → ℚ

/-! ### Authentication (`auth-context.tsx`) -/

/-- The `login` function of the auth context: given the current `isAdmin`
state and the submitted credentials, it returns the pair
(return value, new `isAdmin` state).  The state is set to `true` exactly on
the hardcoded credentials; otherwise `setIsAdmin` is not called, so the state
is unchanged. -/
def login (isAdmin : Bool) (user pass : String) : Bool × Bool :=
  if user = "admin" ∧ pass = "admin@123" then (true, true) else (false, isAdmin)

/-! ### Coordinate-entry validation (`navisafe-app.tsx`, `handleSubmitCoordinates`) -/

/-- Outcome of submitting the add-by-coordinates dialog. -/
inductive CoordSubmitResult where
  | invalidCoordinates
  | processed (lat lng : ℚ)
deriving DecidableEq, Repr

/-- The handler `handleSubmitCoordinates`: the two text inputs go through `parseFloat`,
modelled as `Option ℚ` (`none` for `NaN`); the handler rejects when either
parse failed or a value is out of range, and otherwise processes the spot
addition at the parsed coordinates. -/
def handleSubmitCoordinates (latP lngP : Option ℚ) : CoordSubmitResult :=
  match latP, lngP with
  | some lat, some lng =>
    if lat < -90 ∨ lat > 90 ∨ lng < -180 ∨ lng > 180 then
      CoordSubmitResult.invalidCoordinates
    else
      CoordSubmitResult.processed lat lng
  | _, _ => CoordSubmitResult.invalidCoordinates

/-! ### Nearby-spot check (`navisafe-app.tsx`, `processNewSpotAddition`) -/

/-- The 50 meter threshold `NEARBY_THRESHOLD` of `navisafe-app.tsx`. -/
def NEARBY_THRESHOLD : ℚ := 50

/-- Outcome of `processNewSpotAddition` after the snap-to-road step. -/
inductive SpotAdditionResult where
  | confirmExisting (spot : BlackSpot)
  | proposeNew (lat lng : ℚ)
deriving DecidableEq, Repr

/-- The handler `processNewSpotAddition`, after the OSRM snap produced the snapped
coordinates: `blackSpots?.find(...)` looks for the first spot strictly within
`NEARBY_THRESHOLD` of the snapped point; if one exists it is offered for
report-count confirmation, otherwise a new spot at the snapped coordinates is
proposed. -/
def processNewSpotAddition (d : Distance) (spots : List BlackSpot)
    (snappedLat snappedLng : ℚ) : SpotAdditionResult :=
  match spots.find? (fun spot =>
      decide (d (spotCoord spot) ⟨snappedLat, snappedLng⟩ < NEARBY_THRESHOLD)) with
  | some s => SpotAdditionResult.confirmExisting s
  | none => SpotAdditionResult.proposeNew snappedLat snappedLng

/-! ### Cumulative stop distances (`navisafe-app.tsx`, `stopDistances`) -/

/-- The memo `stopDistances`: with no route details or no `legs` array it yields
`[]`; otherwise it walks the stops, adds `legs?.[index]?.distance || 0` to an
accumulator and records the running total per stop.  `legs?` is `none` when
the route details or their `legs` array are missing; a leg index beyond the
array contributes `0`. -/
def stopDistances (legs? : Option (List ℚ)) (numStops : ℕ) : List ℚ :=
  match legs? with
  | none => []
  | some legs =>
    if numStops = 0 then []
    else
      ((List.range numStops).foldl
        (fun (st : ℚ × List ℚ) i =>
          let legDistance := legs.getD i 0
          (st.1 + legDistance, st.2 ++ [st.1 + legDistance]))
        (0, [])).2

/-! ### Hazard proximity scorers

Three generations of the map component are present in the sources.

* The oldest (`map.tsx`, `fetchRoute`): `COLLISION_THRESHOLD = 50`, spots in
  the outer loop, route points in the inner loop with a `break` on the first
  hit, comparison `<=`.
* The scoring generation (`map.tsx` `routesWithScores` and the
  `calculateRiskScore` closure of the `part_003` component):
  `COLLISION_THRESHOLD = 500`, route points in the outer loop, spots in the
  inner loop, deduplication through a set of spot ids, comparison `<`, and a
  severity-weighted risk score; their `runSafetyAnalysis` collects the
  detected spots themselves with the same strict comparison.
* The `part_004` component's `fetchRoute`: `COLLISION_THRESHOLD = 500`,
  strict comparison, and an optimization that skips every route point whose
  index is not a multiple of 10.
-/

/-- The 50 meter `COLLISION_THRESHOLD` of the oldest `map.tsx` component. -/
def COLLISION_THRESHOLD_V1 : ℚ := 50

/-- The 500 meter `COLLISION_THRESHOLD` of the later components. -/
def COLLISION_THRESHOLD : ℚ := 500

/-- Collision detection of the oldest `map.tsx` component: for each spot the
route points are scanned and the spot is added on the first point with
distance `<= COLLISION_THRESHOLD` (the `break` makes the inner loop an
existence test over the points, i.e. `List.any`). -/
def collidingSpots (d : Distance) (spots : List BlackSpot)
    (routePoints : List Coord) : List BlackSpot :=
  spots.filter (fun spot =>
    routePoints.any (fun p => decide (d (spotCoord spot) p ≤ COLLISION_THRESHOLD_V1)))

/-- Severity weight of the scoring components:
`spot.risk_level === 'High' ? 10 : 5`. -/
def severityWeight (s : BlackSpot) : ℤ :=
  if s.risk_level = RiskLevel.High then 10 else 5

/-- One spot of the inner `forEach` of `routesWithScores` /
`calculateRiskScore`: skip the spot when its id is already in the detected
set, otherwise add its severity weight and record its id when it is strictly
within the threshold of the current point.  The state is
(risk score, detected spot ids). -/
def scoreSpotStep (d : Distance) (p : Coord) (st : ℤ × List String)
    (spot : BlackSpot) : ℤ × List String :=
  if spot.id ∈ st.2 then st
  else if d (spotCoord spot) p < COLLISION_THRESHOLD then
    (st.1 + severityWeight spot, st.2 ++ [spot.id])
  else st

/-- One route point of the outer `forEach`: fold the spot list. -/
def scorePointStep (d : Distance) (spots : List BlackSpot)
    (st : ℤ × List String) (p : Coord) : ℤ × List String :=
  spots.foldl (scoreSpotStep d p) st

/-- The full state of `routesWithScores` / `calculateRiskScore` after the
two nested `forEach` loops, starting from `riskScore = 0` and an empty
detected set. -/
def riskScoreState (d : Distance) (coordinates : List Coord)
    (spots : List BlackSpot) : ℤ × List String :=
  coordinates.foldl (scorePointStep d spots) (0, [])

/-- The risk score `calculateRiskScore` returns (also the `riskScore` of
`routesWithScores`). -/
def calculateRiskScore (d : Distance) (coordinates : List Coord)
    (spots : List BlackSpot) : ℤ :=
  (riskScoreState d coordinates spots).1

/-- The ids in the `detectedSpots` set at the end of the loops. -/
def detectedSpotIds (d : Distance) (coordinates : List Coord)
    (spots : List BlackSpot) : List String :=
  (riskScoreState d coordinates spots).2

/-- Adding to the detected-spot set (`Set.add`), modelled on lists: a no-op when the
spot is already present. -/
def addSpot (spot : BlackSpot) (acc : List BlackSpot) : List BlackSpot :=
  if spot ∈ acc then acc else acc ++ [spot]

/-- The detection loop of `runSafetyAnalysis` (present in both later map
components): points outer, spots inner, strict comparison against
`COLLISION_THRESHOLD`, collecting the spots themselves in a set. -/
def runSafetyAnalysisDetected (d : Distance) (coordinates : List Coord)
    (spots : List BlackSpot) : List BlackSpot :=
  coordinates.foldl
    (fun acc p =>
      spots.foldl
        (fun acc spot =>
          if d (spotCoord spot) p < COLLISION_THRESHOLD then addSpot spot acc
          else acc)
        acc)
    []

/-- The detection loop of the `part_004` component's `fetchRoute`: like
`runSafetyAnalysis` but the outer `forEach` returns early on every point
whose index is not a multiple of 10 (`if (index % 10 !== 0) return`). -/
def fetchRouteDetected (d : Distance) (coordinates : List Coord)
    (spots : List BlackSpot) : List BlackSpot :=
  coordinates.enum.foldl
    (fun acc ip =>
      if ip.1 % 10 ≠ 0 then acc
      else
        spots.foldl
          (fun acc spot =>
            if d (spotCoord spot) ip.2 < COLLISION_THRESHOLD then addSpot spot acc
            else acc)
          acc)
    []

/-- A concrete rational-valued distance function, used to instantiate the
parametric detection loops on sample data. -/
def taxicab : Distance := fun p q => |p.lat - q.lat| + |p.lon - q.lon|

/-! ### Route ordering (`sortedRoutes`) -/

/-- The per-route data the sort comparator reads: the computed `riskScore`
and the OSRM `duration`. -/
structure ScoredRoute where
  riskScore : ℤ
  duration : ℚ
deriving DecidableEq, Repr

/-- The order induced by the comparator
`(a, b) => a.riskScore !== b.riskScore ? a.riskScore - b.riskScore : a.duration - b.duration`:
`a` sorts no later than `b` when its risk score is smaller, or the risk
scores are equal and its duration is no larger. -/
def routeLE (a b : ScoredRoute) : Bool :=
  if a.riskScore = b.riskScore then decide (a.duration ≤ b.duration)
  else decide (a.riskScore < b.riskScore)

/-- Sorting `routesWithScores` with the comparator: `Array.prototype.sort` with a
consistent comparator produces a (stably) sorted permutation, modelled by
`List.mergeSort` with `routeLE`. -/
def sortRoutes (routes : List ScoredRoute) : List ScoredRoute :=
  routes.mergeSort routeLE

/-! ### Safety briefing fallback (`getSafetyBriefing`) -/

/-- The string rendering of a risk level, as interpolated into templates. -/
def riskLevelString : RiskLevel → String
  | RiskLevel.High => "High"
  | RiskLevel.Medium => "Medium"

/-- The generic message returned when the model call fails and no black spot
was detected. -/
def genericClearMessage : String :=
  "This route appears to be clear of known high-risk areas. Enjoy your drive and stay safe!"

/-- The caution header of the fallback briefing (the text before the bullet
lines), including the interpolated spot count. -/
def fallbackHeader (spots : List BlackSpot) : String :=
  "An AI-powered summary could not be generated. Please proceed with extra caution.\n\nThis route passes near "
    ++ toString spots.length ++ " known accident-prone area(s):\n\n"

/-- One bullet line of the fallback briefing, interpolating the spot's risk
level and accident history. -/
def fallbackBulletLine (spot : BlackSpot) : String :=
  "â€¢ A **" ++ riskLevelString spot.risk_level
    ++ " risk zone** with a history of: *" ++ spot.accident_history ++ "*.\n"

/-- Concatenation of a list of strings (the `forEach` of the fallback loop
appends bullet lines one by one). -/
def concatStrings : List String → String
  | [] => ""
  | s :: rest => s ++ concatStrings rest

/-- The briefing requester `getSafetyBriefing`: the `generateRouteSafetyBriefing` call is an
external generative-model invocation, modelled by its outcome
(`some briefing` on success, `none` when the call throws).  On success the
model's briefing is returned; on failure the hardcoded fallback is built:
the generic clear message for an empty spot list, otherwise the caution
header followed by one bullet line per spot. -/
def getSafetyBriefing (modelResult : Option String)
    (blackSpots : List BlackSpot) : String :=
  match modelResult with
  | some briefing => briefing
  | none =>
    if blackSpots.length = 0 then genericClearMessage
    else
      blackSpots.foldl (fun acc spot => acc ++ fallbackBulletLine spot)
        (fallbackHeader blackSpots)

/-! ### Haversine distance (modelled from the spec) -/

/-- A geographic point with real coordinates, for the analytic model of the
distance function. -/
structure GeoPoint where
  lat : ℝ
  lon : ℝ

/-- Degrees to radians. -/
noncomputable def toRad (deg : ℝ) : ℝ :=
  deg * Real.pi / 180

/-- The two-argument arctangent, as `Math.atan2(y, x)`. -/
noncomputable def atan2 (y x : ℝ) : ℝ :=
  if 0 < x then Real.arctan (y / x)
  else if x < 0 then
    (if 0 ≤ y then Real.arctan (y / x) + Real.pi
     else Real.arctan (y / x) - Real.pi)
  else
    (if 0 < y then Real.pi / 2
     else if y < 0 then -(Real.pi / 2)
     else 0)

/-- Modelled from the spec: `haversineDistance` is imported from
`@/lib/utils`, which is not among the provided sources; the spec describes it
as the great-circle distance between two points, so it is modelled by the
standard haversine formula
`a = sin²(Δφ/2) + cos φ₁ · cos φ₂ · sin²(Δλ/2)` — this is its intermediate
quantity. -/
noncomputable def haversineA (p q : GeoPoint) : ℝ :=
  Real.sin (toRad (q.lat - p.lat) / 2) ^ 2
    + Real.cos (toRad p.lat) * Real.cos (toRad q.lat)
      * Real.sin (toRad (q.lon - p.lon) / 2) ^ 2

/-- Modelled from the spec: the great-circle distance in meters computed by
the standard haversine formula with Earth radius 6371 km,
`d = R · 2 · atan2(√a, √(1 − a))`. -/
noncomputable def haversineDistance (p q : GeoPoint) : ℝ :=
  6371000 * (2 * atan2 (Real.sqrt (haversineA p q)) (Real.sqrt (1 - haversineA p q)))

/-! ## Theorems -/

/-- Closed form of the `stopDistances` fold: the i-th entry is the partial
sum of the leg distances `0..i`. -/
theorem stopDistances_eq (legs : List ℚ) (n : ℕ) :
    stopDistances (some legs) n =
      (List.range n).map (fun i => ∑ j ∈ Finset.range (i + 1), legs.getD j 0) := by
  have key : ∀ m : ℕ,
      (List.range m).foldl
        (fun (st : ℚ × List ℚ) i =>
          let legDistance := legs.getD i 0
          (st.1 + legDistance, st.2 ++ [st.1 + legDistance]))
        (0, [])
      = (∑ j ∈ Finset.range m, legs.getD j 0,
         (List.range m).map (fun i => ∑ j ∈ Finset.range (i + 1), legs.getD j 0)) := by
    intro m
    induction m with
    | zero => simp
    | succ k ih =>
      rw [List.range_succ, List.foldl_append, ih]
      simp [Finset.sum_range_succ, List.range_succ]
  unfold stopDistances
  by_cases hn : n = 0
  · subst hn; simp
  · simp only [if_neg hn, key n]

/-- Every position of a list contributing through `getD` with default `0`
yields a non-negative value when all list members are non-negative. -/
theorem getD_nonneg (legs : List ℚ) (hx : ∀ x ∈ legs, 0 ≤ x) (j : ℕ) :
    0 ≤ legs.getD j 0 := by
  rw [List.getD_eq_getElem?_getD]
  cases hj : legs[j]? with
  | none => simp
  | some v =>
    have hv : v ∈ legs := by
      obtain ⟨h, rfl⟩ := List.getElem?_eq_some_iff.mp hj
      exact List.getElem_mem h
    simpa using hx v hv

/-- C10: the cumulative distance computed for the i-th stop equals the sum
of the distances of legs 0 through i (a missing leg contributing 0), and the
sequence of cumulative stop distances is non-decreasing whenever all leg
distances are non-negative. -/
theorem stopDistances_cumulative (legs : List ℚ) (n i : ℕ) (hi : i < n) :
    (stopDistances (some legs) n)[i]? =
      some (∑ j ∈ Finset.range (i + 1), legs.getD j 0) ∧
    ((∀ x ∈ legs, 0 ≤ x) →
      List.Chain' (· ≤ ·) (stopDistances (some legs) n)) := by
  rw [stopDistances_eq]
  constructor
  · rw [List.getElem?_map, List.getElem?_range hi]
    rfl
  · intro hx
    rw [List.chain'_map]
    cases n with
    | zero => simp
    | succ m =>
      rw [List.chain'_range_succ]
      intro k _
      rw [Finset.sum_range_succ (fun j => legs.getD j 0) (k + 1)]
      have h0 : 0 ≤ legs.getD (k + 1) 0 := getD_nonneg legs hx (k + 1)
      linarith

/-- Witness for C10 at `legs = [3, 4]`, `n = 2`, `i = 1`. -/
theorem stopDistances_cumulative_witness :
    (1 < 2) ∧
    ((stopDistances (some [(3 : ℚ), 4]) 2)[1]? =
        some (∑ j ∈ Finset.range (1 + 1), [(3 : ℚ), 4].getD j 0) ∧
      ((∀ x ∈ [(3 : ℚ), 4], 0 ≤ x) →
        List.Chain' (· ≤ ·) (stopDistances (some [(3 : ℚ), 4]) 2))) :=
  ⟨by decide, stopDistances_cumulative [(3 : ℚ), 4] 2 1 (by decide)⟩

/-- C7: the login function returns true and sets the admin flag if and only
if the username is exactly `admin` and the password is exactly `admin@123`;
starting from the logged-out state, for every other pair it returns false
and the admin flag stays false (it always equals the returned value). -/
theorem login_hardcoded_credentials (user pass : String) :
    ((login false user pass).1 = true ↔ (user = "admin" ∧ pass = "admin@123")) ∧
    (login false user pass).2 = (login false user pass).1 := by
  constructor
  · unfold login
    split <;> simp_all
  · unfold login
    split <;> rfl

/-- C8: a coordinate submission is processed exactly when both inputs parse
(are not `NaN`) and the parsed latitude lies in `[-90, 90]` and the parsed
longitude in `[-180, 180]`; otherwise the handler reports invalid
coordinates. -/
theorem handleSubmitCoordinates_validates (latP lngP : Option ℚ) (a b : ℚ) :
    (handleSubmitCoordinates latP lngP = CoordSubmitResult.processed a b ↔
      (latP = some a ∧ lngP = some b ∧
        -90 ≤ a ∧ a ≤ 90 ∧ -180 ≤ b ∧ b ≤ 180)) ∧
    (handleSubmitCoordinates latP lngP = CoordSubmitResult.invalidCoordinates ↔
      ¬ (∃ x y : ℚ, handleSubmitCoordinates latP lngP = CoordSubmitResult.processed x y)) := by
  constructor
  · cases latP with
    | none => simp [handleSubmitCoordinates]
    | some lat =>
      cases lngP with
      | none => simp [handleSubmitCoordinates]
      | some lng =>
        simp only [handleSubmitCoordinates]
        by_cases hc : lat < -90 ∨ lat > 90 ∨ lng < -180 ∨ lng > 180
        · rw [if_pos hc]
          constructor
          · intro h; exact absurd h (by simp)
          · rintro ⟨ha, hb, h1, h2, h3, h4⟩
            injection ha with ha; injection hb with hb
            subst ha; subst hb
            rcases hc with c | c | c | c <;> linarith
        · rw [if_neg hc]
          push_neg at hc
          obtain ⟨c1, c2, c3, c4⟩ := hc
          constructor
          · intro h
            injection h with h1 h2
            subst h1; subst h2
            exact ⟨rfl, rfl, c1, c2, c3, c4⟩
          · rintro ⟨ha, hb, _⟩
            injection ha with ha; injection hb with hb
            subst ha; subst hb
            rfl
  · cases latP with
    | none => simp [handleSubmitCoordinates]
    | some lat =>
      cases lngP with
      | none => simp [handleSubmitCoordinates]
      | some lng =>
        simp only [handleSubmitCoordinates]
        by_cases hc : lat < -90 ∨ lat > 90 ∨ lng < -180 ∨ lng > 180
        · rw [if_pos hc]; simp
        · rw [if_neg hc]; simp

/-- C9: after snapping, if some existing black spot lies strictly within the
50 meter nearby threshold of the snapped coordinates then the addition
resolves to confirming such an existing spot (no new spot is proposed), and
a new spot at the snapped coordinates is proposed exactly when no existing
spot is within the threshold. -/
theorem processNewSpotAddition_nearby (d : Distance) (spots : List BlackSpot)
    (la ln : ℚ) :
    ((∃ s, processNewSpotAddition d spots la ln = SpotAdditionResult.confirmExisting s ∧
        s ∈ spots ∧ d (spotCoord s) ⟨la, ln⟩ < NEARBY_THRESHOLD) ↔
      (∃ s ∈ spots, d (spotCoord s) ⟨la, ln⟩ < NEARBY_THRESHOLD)) ∧
    (processNewSpotAddition d spots la ln = SpotAdditionResult.proposeNew la ln ↔
      ∀ s ∈ spots, ¬ d (spotCoord s) ⟨la, ln⟩ < NEARBY_THRESHOLD) := by
  unfold processNewSpotAddition
  cases hfind : spots.find? (fun spot =>
      decide (d (spotCoord spot) ⟨la, ln⟩ < NEARBY_THRESHOLD)) with
  | none =>
    have hall := List.find?_eq_none.mp hfind
    simp only [decide_eq_true_eq] at hall
    constructor
    · constructor
      · rintro ⟨s, hs, _, _⟩
        exact absurd hs (by simp)
      · rintro ⟨s, hmem, hd⟩
        exact absurd hd (hall s hmem)
    · constructor
      · intro _
        exact hall
      · intro _
        rfl
  | some s =>
    have hmem : s ∈ spots := List.mem_of_find?_eq_some hfind
    have hd : d (spotCoord s) ⟨la, ln⟩ < NEARBY_THRESHOLD := by
      have := List.find?_some hfind
      simpa using this
    constructor
    · constructor
      · intro _
        exact ⟨s, hmem, hd⟩
      · intro _
        exact ⟨s, rfl, hmem, hd⟩
    · constructor
      · intro h
        exact absurd h (by simp)
      · intro hall
        exact absurd hd (hall s hmem)

/-- Membership in the detected set after a `Set.add`. -/
theorem mem_addSpot (x s : BlackSpot) (acc : List BlackSpot) :
    x ∈ addSpot s acc ↔ x ∈ acc ∨ x = s := by
  unfold addSpot
  by_cases h : s ∈ acc
  · rw [if_pos h]
    constructor
    · exact Or.inl
    · rintro (hx | rfl)
      · exact hx
      · exact h
  · rw [if_neg h]
    simp

/-- Membership after scanning the spot list at one route point in the
`runSafetyAnalysis` style detection. -/
theorem mem_detectFold (d : Distance) (p : Coord) (spots : List BlackSpot)
    (acc : List BlackSpot) (x : BlackSpot) :
    x ∈ spots.foldl
        (fun acc spot =>
          if d (spotCoord spot) p < COLLISION_THRESHOLD then addSpot spot acc
          else acc)
        acc ↔
      x ∈ acc ∨ (x ∈ spots ∧ d (spotCoord x) p < COLLISION_THRESHOLD) := by
  induction spots generalizing acc with
  | nil => simp
  | cons s rest ih =>
    rw [List.foldl_cons]
    by_cases h : d (spotCoord s) p < COLLISION_THRESHOLD
    · rw [if_pos h, ih, mem_addSpot]
      constructor
      · rintro ((hx | rfl) | ⟨hr, hd⟩)
        · exact Or.inl hx
        · exact Or.inr ⟨List.mem_cons_self _ _, h⟩
        · exact Or.inr ⟨List.mem_cons_of_mem _ hr, hd⟩
      · rintro (hx | ⟨hm, hd⟩)
        · exact Or.inl (Or.inl hx)
        · rcases List.mem_cons.mp hm with rfl | hr
          · exact Or.inl (Or.inr rfl)
          · exact Or.inr ⟨hr, hd⟩
    · rw [if_neg h, ih]
      constructor
      · rintro (hx | ⟨hr, hd⟩)
        · exact Or.inl hx
        · exact Or.inr ⟨List.mem_cons_of_mem _ hr, hd⟩
      · rintro (hx | ⟨hm, hd⟩)
        · exact Or.inl hx
        · rcases List.mem_cons.mp hm with rfl | hr
          · exact absurd hd h
          · exact Or.inr ⟨hr, hd⟩

/-- Membership in the `runSafetyAnalysis` detection fold, for an arbitrary
starting accumulator. -/
theorem mem_safetyFold (d : Distance) (spots : List BlackSpot)
    (coords : List Coord) (acc : List BlackSpot) (x : BlackSpot) :
    x ∈ coords.foldl
        (fun acc p =>
          spots.foldl
            (fun acc spot =>
              if d (spotCoord spot) p < COLLISION_THRESHOLD then addSpot spot acc
              else acc)
            acc)
        acc ↔
      x ∈ acc ∨ (x ∈ spots ∧ ∃ p ∈ coords, d (spotCoord x) p < COLLISION_THRESHOLD) := by
  induction coords generalizing acc with
  | nil => simp
  | cons p rest ih =>
    rw [List.foldl_cons, ih, mem_detectFold]
    constructor
    · rintro ((hx | ⟨hm, hd⟩) | ⟨hm, q, hq, hd⟩)
      · exact Or.inl hx
      · exact Or.inr ⟨hm, p, List.mem_cons_self _ _, hd⟩
      · exact Or.inr ⟨hm, q, List.mem_cons_of_mem _ hq, hd⟩
    · rintro (hx | ⟨hm, q, hq, hd⟩)
      · exact Or.inl (Or.inl hx)
      · rcases List.mem_cons.mp hq with rfl | hq'
        · exact Or.inl (Or.inr ⟨hm, hd⟩)
        · exact Or.inr ⟨hm, q, hq', hd⟩

/-- Membership in the `part_004` detection fold over an enumerated point
list, for an arbitrary starting accumulator. -/
theorem mem_enumFold (d : Distance) (spots : List BlackSpot)
    (ips : List (ℕ × Coord)) (acc : List BlackSpot) (x : BlackSpot) :
    x ∈ ips.foldl
        (fun acc ip =>
          if ip.1 % 10 ≠ 0 then acc
          else
            spots.foldl
              (fun acc spot =>
                if d (spotCoord spot) ip.2 < COLLISION_THRESHOLD then addSpot spot acc
                else acc)
              acc)
        acc ↔
      x ∈ acc ∨ (x ∈ spots ∧ ∃ ip ∈ ips, ip.1 % 10 = 0 ∧
        d (spotCoord x) ip.2 < COLLISION_THRESHOLD) := by
  induction ips generalizing acc with
  | nil => simp
  | cons ip rest ih =>
    rw [List.foldl_cons]
    by_cases h : ip.1 % 10 ≠ 0
    · rw [if_pos h, ih]
      constructor
      · rintro (hx | ⟨hm, q, hq, hq0, hd⟩)
        · exact Or.inl hx
        · exact Or.inr ⟨hm, q, List.mem_cons_of_mem _ hq, hq0, hd⟩
      · rintro (hx | ⟨hm, q, hq, hq0, hd⟩)
        · exact Or.inl hx
        · rcases List.mem_cons.mp hq with rfl | hq'
          · exact absurd hq0 h
          · exact Or.inr ⟨hm, q, hq', hq0, hd⟩
    · rw [if_neg h, ih, mem_detectFold]
      push_neg at h
      constructor
      · rintro ((hx | ⟨hm, hd⟩) | ⟨hm, q, hq, hq0, hd⟩)
        · exact Or.inl hx
        · exact Or.inr ⟨hm, ip, List.mem_cons_self _ _, h, hd⟩
        · exact Or.inr ⟨hm, q, List.mem_cons_of_mem _ hq, hq0, hd⟩
      · rintro (hx | ⟨hm, q, hq, hq0, hd⟩)
        · exact Or.inl (Or.inl hx)
        · rcases List.mem_cons.mp hq with rfl | hq'
          · exact Or.inl (Or.inr ⟨hm, hd⟩)
          · exact Or.inr ⟨hm, q, hq', hq0, hd⟩

/-- Membership of an id in the detected-id component after scanning the spot
list at one route point of the scoring loop. -/
theorem scorePointStep_snd_mem (d : Distance) (p : Coord)
    (spots : List BlackSpot) (st : ℤ × List String) (x : String) :
    x ∈ (scorePointStep d spots st p).2 ↔
      x ∈ st.2 ∨ ∃ s ∈ spots, s.id = x ∧ d (spotCoord s) p < COLLISION_THRESHOLD := by
  unfold scorePointStep
  induction spots generalizing st with
  | nil => simp
  | cons s rest ih =>
    rw [List.foldl_cons]
    by_cases hmem : s.id ∈ st.2
    · have hstep : scoreSpotStep d p st s = st := by
        unfold scoreSpotStep
        rw [if_pos hmem]
      rw [hstep, ih]
      constructor
      · rintro (hx | ⟨t, ht, rfl, hd⟩)
        · exact Or.inl hx
        · exact Or.inr ⟨t, List.mem_cons_of_mem _ ht, rfl, hd⟩
      · rintro (hx | ⟨t, ht, rfl, hd⟩)
        · exact Or.inl hx
        · rcases List.mem_cons.mp ht with rfl | ht'
          · exact Or.inl hmem
          · exact Or.inr ⟨t, ht', rfl, hd⟩
    · by_cases hd : d (spotCoord s) p < COLLISION_THRESHOLD
      · have hstep : scoreSpotStep d p st s = (st.1 + severityWeight s, st.2 ++ [s.id]) := by
          unfold scoreSpotStep
          rw [if_neg hmem, if_pos hd]
        rw [hstep, ih]
        simp only [List.mem_append, List.mem_singleton]
        constructor
        · rintro ((hx | rfl) | ⟨t, ht, rfl, hdt⟩)
          · exact Or.inl hx
          · exact Or.inr ⟨s, List.mem_cons_self _ _, rfl, hd⟩
          · exact Or.inr ⟨t, List.mem_cons_of_mem _ ht, rfl, hdt⟩
        · rintro (hx | ⟨t, ht, rfl, hdt⟩)
          · exact Or.inl (Or.inl hx)
          · rcases List.mem_cons.mp ht with rfl | ht'
            · exact Or.inl (Or.inr rfl)
            · exact Or.inr ⟨t, ht', rfl, hdt⟩
      · have hstep : scoreSpotStep d p st s = st := by
          unfold scoreSpotStep
          rw [if_neg hmem, if_neg hd]
        rw [hstep, ih]
        constructor
        · rintro (hx | ⟨t, ht, rfl, hdt⟩)
          · exact Or.inl hx
          · exact Or.inr ⟨t, List.mem_cons_of_mem _ ht, rfl, hdt⟩
        · rintro (hx | ⟨t, ht, rfl, hdt⟩)
          · exact Or.inl hx
          · rcases List.mem_cons.mp ht with rfl | ht'
            · exact absurd hdt hd
            · exact Or.inr ⟨t, ht', rfl, hdt⟩

/-- Membership of an id in the detected-id component of the full scoring
fold, for an arbitrary starting state. -/
theorem detectedIds_mem (d : Distance) (spots : List BlackSpot)
    (coords : List Coord) (st : ℤ × List String) (x : String) :
    x ∈ (coords.foldl (scorePointStep d spots) st).2 ↔
      x ∈ st.2 ∨ ∃ t ∈ spots, t.id = x ∧
        ∃ p ∈ coords, d (spotCoord t) p < COLLISION_THRESHOLD := by
  induction coords generalizing st with
  | nil => simp
  | cons p rest ih =>
    rw [List.foldl_cons, ih, scorePointStep_snd_mem]
    constructor
    · rintro ((hx | ⟨t, ht, rfl, hd⟩) | ⟨t, ht, rfl, q, hq, hd⟩)
      · exact Or.inl hx
      · exact Or.inr ⟨t, ht, rfl, p, List.mem_cons_self _ _, hd⟩
      · exact Or.inr ⟨t, ht, rfl, q, List.mem_cons_of_mem _ hq, hd⟩
    · rintro (hx | ⟨t, ht, rfl, q, hq, hd⟩)
      · exact Or.inl (Or.inl hx)
      · rcases List.mem_cons.mp hq with rfl | hq'
        · exact Or.inl (Or.inr ⟨t, ht, rfl, hd⟩)
        · exact Or.inr ⟨t, ht, rfl, q, hq', hd⟩

/-- Splitting a filtered severity sum along a second predicate. -/
theorem sum_filter_split {α : Type} (l : List α) (P Q : α → Bool) (f : α → ℤ) :
    ((l.filter P).map f).sum + ((l.filter (fun a => !P a && Q a)).map f).sum
      = ((l.filter (fun a => P a || Q a)).map f).sum := by
  induction l with
  | nil => simp
  | cons a rest ih =>
    by_cases hp : P a = true
    · rw [List.filter_cons_of_pos hp,
        List.filter_cons_of_neg (by simp [hp]),
        List.filter_cons_of_pos (by simp [hp]),
        List.map_cons, List.sum_cons, List.map_cons, List.sum_cons, ← ih]
      ring
    · rw [Bool.not_eq_true] at hp
      by_cases hq : Q a = true
      · rw [List.filter_cons_of_neg (by simp [hp]),
          List.filter_cons_of_pos (by simp [hp, hq]),
          List.filter_cons_of_pos (by simp [hp, hq]),
          List.map_cons, List.sum_cons, List.map_cons, List.sum_cons, ← ih]
        ring
      · rw [Bool.not_eq_true] at hq
        rw [List.filter_cons_of_neg (by simp [hp]),
          List.filter_cons_of_neg (by simp [hq]),
          List.filter_cons_of_neg (by simp [hp, hq])]
        exact ih

/-- Score increment after scanning the spot list at one route point: the
severity weights of the spots that are strictly within the threshold of the
point and not yet detected are added (ids assumed pairwise distinct). -/
theorem scorePointStep_fst (d : Distance) (p : Coord) (spots : List BlackSpot)
    (st : ℤ × List String) (hnd : (spots.map BlackSpot.id).Nodup) :
    (scorePointStep d spots st p).1 =
      st.1 + ((spots.filter (fun s =>
        !(decide (s.id ∈ st.2)) && decide (d (spotCoord s) p < COLLISION_THRESHOLD))).map
          severityWeight).sum := by
  unfold scorePointStep
  induction spots generalizing st with
  | nil => simp
  | cons s rest ih =>
    rw [List.map_cons, List.nodup_cons] at hnd
    obtain ⟨hid, hnd'⟩ := hnd
    rw [List.foldl_cons]
    by_cases hmem : s.id ∈ st.2
    · have hstep : scoreSpotStep d p st s = st := by
        unfold scoreSpotStep
        rw [if_pos hmem]
      rw [hstep, ih st hnd', List.filter_cons_of_neg (by simp [hmem])]
    · by_cases hd : d (spotCoord s) p < COLLISION_THRESHOLD
      · have hstep : scoreSpotStep d p st s = (st.1 + severityWeight s, st.2 ++ [s.id]) := by
          unfold scoreSpotStep
          rw [if_neg hmem, if_pos hd]
        rw [hstep, ih (st.1 + severityWeight s, st.2 ++ [s.id]) hnd']
        have hcong : rest.filter (fun t =>
              !(decide (t.id ∈ st.2 ++ [s.id])) && decide (d (spotCoord t) p < COLLISION_THRESHOLD))
            = rest.filter (fun t =>
              !(decide (t.id ∈ st.2)) && decide (d (spotCoord t) p < COLLISION_THRESHOLD)) := by
          apply List.filter_congr
          intro t ht
          have hne : t.id ≠ s.id := by
            intro he
            exact hid (he ▸ List.mem_map_of_mem BlackSpot.id ht)
          have : decide (t.id ∈ st.2 ++ [s.id]) = decide (t.id ∈ st.2) := by
            simp [List.mem_append, hne]
          rw [this]
        rw [hcong, List.filter_cons_of_pos (by simp [hmem, hd]),
          List.map_cons, List.sum_cons]
        ring
      · have hstep : scoreSpotStep d p st s = st := by
          unfold scoreSpotStep
          rw [if_neg hmem, if_neg hd]
        rw [hstep, ih st hnd', List.filter_cons_of_neg (by simp [hd])]

/-- Invariant of the full scoring fold: if the starting state's detected ids
characterize a predicate `P` over the spot list and its score is the
severity sum over `P`, then the final score is the severity sum over
"`P` or strictly within the threshold of some processed point", and the
final detected ids characterize that disjunction (spot ids assumed pairwise
distinct). -/
theorem riskState_fold (d : Distance) (spots : List BlackSpot)
    (hnd : (spots.map BlackSpot.id).Nodup) (coords : List Coord) :
    ∀ (st : ℤ × List String) (P : BlackSpot → Bool),
      (∀ s ∈ spots, s.id ∈ st.2 ↔ P s = true) →
      st.1 = ((spots.filter P).map severityWeight).sum →
      (coords.foldl (scorePointStep d spots) st).1 =
        ((spots.filter (fun s => P s ||
          coords.any (fun p => decide (d (spotCoord s) p < COLLISION_THRESHOLD)))).map
            severityWeight).sum ∧
      (∀ s ∈ spots, s.id ∈ (coords.foldl (scorePointStep d spots) st).2 ↔
        (P s || coords.any (fun p => decide (d (spotCoord s) p < COLLISION_THRESHOLD))) = true) := by
  induction coords with
  | nil =>
    intro st P hP hsum
    simp only [List.foldl_nil, List.any_nil, Bool.or_false]
    exact ⟨by rw [hsum], hP⟩
  | cons p rest ih =>
    intro st P hP hsum
    rw [List.foldl_cons]
    have hP' : ∀ s ∈ spots, s.id ∈ (scorePointStep d spots st p).2 ↔
        (P s || decide (d (spotCoord s) p < COLLISION_THRESHOLD)) = true := by
      intro s hs
      rw [scorePointStep_snd_mem]
      constructor
      · rintro (hx | ⟨t, ht, hidq, hd⟩)
        · simp [(hP s hs).mp hx]
        · have := List.inj_on_of_nodup_map hnd ht hs hidq
          subst this
          simp [hd]
      · intro hor
        rcases Bool.or_eq_true_iff.mp hor with h | h
        · exact Or.inl ((hP s hs).mpr h)
        · exact Or.inr ⟨s, hs, rfl, of_decide_eq_true h⟩
    have hsum' : (scorePointStep d spots st p).1 =
        ((spots.filter (fun s => P s ||
          decide (d (spotCoord s) p < COLLISION_THRESHOLD))).map severityWeight).sum := by
      rw [scorePointStep_fst d p spots st hnd, hsum]
      have hcong : spots.filter (fun s =>
            !(decide (s.id ∈ st.2)) && decide (d (spotCoord s) p < COLLISION_THRESHOLD))
          = spots.filter (fun s =>
            !(P s) && decide (d (spotCoord s) p < COLLISION_THRESHOLD)) := by
        apply List.filter_congr
        intro s hs
        have hbool : decide (s.id ∈ st.2) = P s := by
          rw [Bool.eq_iff_iff]
          simp [hP s hs]
        rw [hbool]
      rw [hcong]
      exact sum_filter_split spots P
        (fun s => decide (d (spotCoord s) p < COLLISION_THRESHOLD)) severityWeight
    obtain ⟨ihA, ihB⟩ := ih (scorePointStep d spots st p)
      (fun s => P s || decide (d (spotCoord s) p < COLLISION_THRESHOLD)) hP' hsum'
    constructor
    · rw [ihA]
      congr 1
      congr 1
      apply List.filter_congr
      intro s _
      rw [List.any_cons, Bool.or_assoc]
    · intro s hs
      rw [ihB s hs, List.any_cons, Bool.or_assoc]

/-- Membership characterization of the detected-id set of the scoring
components: an id is detected iff some spot bearing it is strictly within
the threshold of some route coordinate. -/
theorem mem_detectedSpotIds (d : Distance) (spots : List BlackSpot)
    (coords : List Coord) (x : String) :
    x ∈ detectedSpotIds d coords spots ↔
      ∃ t ∈ spots, t.id = x ∧ ∃ p ∈ coords, d (spotCoord t) p < COLLISION_THRESHOLD := by
  unfold detectedSpotIds riskScoreState
  rw [detectedIds_mem]
  simp

/-- Membership characterization of the `runSafetyAnalysis` detected set. -/
theorem mem_runSafetyAnalysisDetected (d : Distance) (spots : List BlackSpot)
    (coords : List Coord) (x : BlackSpot) :
    x ∈ runSafetyAnalysisDetected d coords spots ↔
      x ∈ spots ∧ ∃ p ∈ coords, d (spotCoord x) p < COLLISION_THRESHOLD := by
  unfold runSafetyAnalysisDetected
  rw [mem_safetyFold]
  simp

/-- Membership characterization of the `part_004` detected set: only route
points at an index that is a multiple of 10 participate. -/
theorem mem_fetchRouteDetected (d : Distance) (spots : List BlackSpot)
    (coords : List Coord) (x : BlackSpot) :
    x ∈ fetchRouteDetected d coords spots ↔
      x ∈ spots ∧ ∃ ip ∈ coords.enum, ip.1 % 10 = 0 ∧
        d (spotCoord x) ip.2 < COLLISION_THRESHOLD := by
  unfold fetchRouteDetected
  rw [mem_enumFold]
  simp

/-- C1 (amended): a black spot with its id unique in the spot list is
flagged as detected if and only if some coordinate of the route lies within
the collision threshold of it — inclusively at threshold 50 in the oldest
`map.tsx` detection, strictly at threshold 500 in the `routesWithScores` /
`calculateRiskScore` scorers and in the `runSafetyAnalysis` detection; in
the `part_004` `fetchRoute` version only the coordinates whose index is a
multiple of 10 are compared, so the spot is flagged iff some such coordinate
is strictly within the threshold. -/
theorem hazard_detection_characterization (d : Distance) (spots : List BlackSpot)
    (coords : List Coord) (spot : BlackSpot)
    (hnd : (spots.map BlackSpot.id).Nodup) (hs : spot ∈ spots) :
    (spot ∈ collidingSpots d spots coords ↔
      ∃ p ∈ coords, d (spotCoord spot) p ≤ COLLISION_THRESHOLD_V1) ∧
    (spot.id ∈ detectedSpotIds d coords spots ↔
      ∃ p ∈ coords, d (spotCoord spot) p < COLLISION_THRESHOLD) ∧
    (spot ∈ runSafetyAnalysisDetected d coords spots ↔
      ∃ p ∈ coords, d (spotCoord spot) p < COLLISION_THRESHOLD) ∧
    (spot ∈ fetchRouteDetected d coords spots ↔
      ∃ i, ∃ h : i < coords.length, i % 10 = 0 ∧
        d (spotCoord spot) coords[i] < COLLISION_THRESHOLD) := by
  refine ⟨?_, ?_, ?_, ?_⟩
  · unfold collidingSpots
    rw [List.mem_filter, List.any_eq_true]
    simp [hs]
  · rw [mem_detectedSpotIds]
    constructor
    · rintro ⟨t, ht, hid, q, hq, hd⟩
      have : t = spot := List.inj_on_of_nodup_map hnd ht hs hid
      subst this
      exact ⟨q, hq, hd⟩
    · rintro ⟨q, hq, hd⟩
      exact ⟨spot, hs, rfl, q, hq, hd⟩
  · rw [mem_runSafetyAnalysisDetected]
    simp [hs]
  · rw [mem_fetchRouteDetected]
    constructor
    · rintro ⟨_, ⟨i, q⟩, hip, h0, hd⟩
      obtain ⟨hlt, heq⟩ := List.getElem?_eq_some_iff.mp
        (List.mk_mem_enum_iff_getElem?.mp hip)
      exact ⟨i, hlt, h0, heq ▸ hd⟩
    · rintro ⟨i, hlt, h0, hd⟩
      refine ⟨hs, (i, coords[i]), ?_, h0, hd⟩
      rw [List.mk_mem_enum_iff_getElem?]
      exact List.getElem?_eq_getElem hlt

/-- Counterexample to C1 as stated: in the `part_004` `fetchRoute` version a
spot within the threshold only of the route point at index 1 is not flagged,
although a coordinate of the polyline lies within the collision threshold of
it. -/
theorem hazard_detection_counterexample :
    (∃ p ∈ [Coord.mk 1000 1000, Coord.mk 0 0],
      taxicab (spotCoord (BlackSpot.mk "x" 0 0 RiskLevel.High "hist" 1)) p
        < COLLISION_THRESHOLD) ∧
    BlackSpot.mk "x" 0 0 RiskLevel.High "hist" 1 ∉
      fetchRouteDetected taxicab [Coord.mk 1000 1000, Coord.mk 0 0]
        [BlackSpot.mk "x" 0 0 RiskLevel.High "hist" 1] := by
  constructor
  · refine ⟨Coord.mk 0 0, by simp, ?_⟩
    norm_num [taxicab, spotCoord, COLLISION_THRESHOLD]
  · intro h
    obtain ⟨_, ip, hip, h0, hd⟩ := (mem_fetchRouteDetected taxicab
      [BlackSpot.mk "x" 0 0 RiskLevel.High "hist" 1]
      [Coord.mk 1000 1000, Coord.mk 0 0]
      (BlackSpot.mk "x" 0 0 RiskLevel.High "hist" 1)).mp h
    have henum : ([Coord.mk 1000 1000, Coord.mk 0 0] : List Coord).enum
        = [(0, Coord.mk 1000 1000), (1, Coord.mk 0 0)] := rfl
    rw [henum] at hip
    simp only [List.mem_cons, List.mem_singleton, List.not_mem_nil, or_false] at hip
    rcases hip with rfl | rfl
    · norm_num [taxicab, spotCoord, COLLISION_THRESHOLD] at hd
    · norm_num at h0

/-- Witness for C1 at a one-spot, one-point instance. -/
theorem hazard_detection_witness :
    ([BlackSpot.mk "a" 0 0 RiskLevel.High "h" 1].map BlackSpot.id).Nodup ∧
    BlackSpot.mk "a" 0 0 RiskLevel.High "h" 1 ∈
      [BlackSpot.mk "a" 0 0 RiskLevel.High "h" 1] ∧
    ((BlackSpot.mk "a" 0 0 RiskLevel.High "h" 1 ∈
        collidingSpots taxicab [BlackSpot.mk "a" 0 0 RiskLevel.High "h" 1] [Coord.mk 0 0] ↔
      ∃ p ∈ [Coord.mk 0 0],
        taxicab (spotCoord (BlackSpot.mk "a" 0 0 RiskLevel.High "h" 1)) p
          ≤ COLLISION_THRESHOLD_V1) ∧
    ((BlackSpot.mk "a" 0 0 RiskLevel.High "h" 1).id ∈
        detectedSpotIds taxicab [Coord.mk 0 0] [BlackSpot.mk "a" 0 0 RiskLevel.High "h" 1] ↔
      ∃ p ∈ [Coord.mk 0 0],
        taxicab (spotCoord (BlackSpot.mk "a" 0 0 RiskLevel.High "h" 1)) p
          < COLLISION_THRESHOLD) ∧
    (BlackSpot.mk "a" 0 0 RiskLevel.High "h" 1 ∈
        runSafetyAnalysisDetected taxicab [Coord.mk 0 0]
          [BlackSpot.mk "a" 0 0 RiskLevel.High "h" 1] ↔
      ∃ p ∈ [Coord.mk 0 0],
        taxicab (spotCoord (BlackSpot.mk "a" 0 0 RiskLevel.High "h" 1)) p
          < COLLISION_THRESHOLD) ∧
    (BlackSpot.mk "a" 0 0 RiskLevel.High "h" 1 ∈
        fetchRouteDetected taxicab [Coord.mk 0 0]
          [BlackSpot.mk "a" 0 0 RiskLevel.High "h" 1] ↔
      ∃ i, ∃ h : i < ([Coord.mk 0 0] : List Coord).length, i % 10 = 0 ∧
        taxicab (spotCoord (BlackSpot.mk "a" 0 0 RiskLevel.High "h" 1))
          ([Coord.mk 0 0] : List Coord)[i] < COLLISION_THRESHOLD)) :=
  ⟨by decide, by decide,
    hazard_detection_characterization taxicab
      [BlackSpot.mk "a" 0 0 RiskLevel.High "h" 1] [Coord.mk 0 0]
      (BlackSpot.mk "a" 0 0 RiskLevel.High "h" 1) (by decide) (by decide)⟩

/-- C2: when the spot ids are pairwise distinct, the computed risk score
equals the sum, over the spots strictly within the threshold of some route
coordinate (each such spot counted once however many route points are close
to it), of 10 for a High spot and 5 otherwise (i.e. for a Medium spot), and
the score is non-negative. -/
theorem calculateRiskScore_spec (d : Distance) (coordinates : List Coord)
    (spots : List BlackSpot) (hnd : (spots.map BlackSpot.id).Nodup) :
    calculateRiskScore d coordinates spots =
      ((spots.filter (fun s =>
          coordinates.any (fun p =>
            decide (d (spotCoord s) p < COLLISION_THRESHOLD)))).map
        (fun s => if s.risk_level = RiskLevel.High then (10 : ℤ) else 5)).sum ∧
    0 ≤ calculateRiskScore d coordinates spots := by
  have h := riskState_fold d spots hnd coordinates (0, []) (fun _ => false)
    (by simp) (by simp)
  have hmain : calculateRiskScore d coordinates spots =
      ((spots.filter (fun s =>
        coordinates.any (fun p =>
          decide (d (spotCoord s) p < COLLISION_THRESHOLD)))).map severityWeight).sum := by
    unfold calculateRiskScore riskScoreState
    rw [h.1]
    simp only [Bool.false_or]
  constructor
  · rw [hmain]
    rfl
  · rw [hmain]
    apply List.sum_nonneg
    intro x hx
    obtain ⟨s, _, rfl⟩ := List.mem_map.mp hx
    unfold severityWeight
    split <;> norm_num

/-- Witness for C2 at a two-spot instance: the High spot at the route point
is counted once, the far Medium spot is not. -/
theorem calculateRiskScore_witness :
    (([BlackSpot.mk "a" 0 0 RiskLevel.High "h" 2,
        BlackSpot.mk "b" 3000 4000 RiskLevel.Medium "g" 1].map BlackSpot.id).Nodup) ∧
    (calculateRiskScore taxicab [Coord.mk 0 0, Coord.mk 1 1]
        [BlackSpot.mk "a" 0 0 RiskLevel.High "h" 2,
          BlackSpot.mk "b" 3000 4000 RiskLevel.Medium "g" 1] =
      (([BlackSpot.mk "a" 0 0 RiskLevel.High "h" 2,
          BlackSpot.mk "b" 3000 4000 RiskLevel.Medium "g" 1].filter (fun s =>
            [Coord.mk 0 0, Coord.mk 1 1].any (fun p =>
              decide (taxicab (spotCoord s) p < COLLISION_THRESHOLD)))).map
        (fun s => if s.risk_level = RiskLevel.High then (10 : ℤ) else 5)).sum ∧
      0 ≤ calculateRiskScore taxicab [Coord.mk 0 0, Coord.mk 1 1]
        [BlackSpot.mk "a" 0 0 RiskLevel.High "h" 2,
          BlackSpot.mk "b" 3000 4000 RiskLevel.Medium "g" 1]) :=
  ⟨by decide,
    calculateRiskScore_spec taxicab [Coord.mk 0 0, Coord.mk 1 1]
      [BlackSpot.mk "a" 0 0 RiskLevel.High "h" 2,
        BlackSpot.mk "b" 3000 4000 RiskLevel.Medium "g" 1] (by decide)⟩

/-- C4 (amended): in the oldest `map.tsx` detection the comparison is
inclusive — a spot at exactly the 50 meter threshold of a route point is
flagged; in the `routesWithScores` / `calculateRiskScore` scorers and the
`runSafetyAnalysis` detection the comparison is strict, so a spot that is
everywhere at distance at least the 500 meter threshold (in particular
exactly at it) is not flagged. -/
theorem collision_threshold_boundary (d : Distance) (spots : List BlackSpot)
    (coords : List Coord) (s : BlackSpot) (p : Coord)
    (hnd : (spots.map BlackSpot.id).Nodup) (hs : s ∈ spots) :
    (p ∈ coords → d (spotCoord s) p = COLLISION_THRESHOLD_V1 →
      s ∈ collidingSpots d spots coords) ∧
    ((∀ q ∈ coords, COLLISION_THRESHOLD ≤ d (spotCoord s) q) →
      s.id ∉ detectedSpotIds d coords spots ∧
      s ∉ runSafetyAnalysisDetected d coords spots) := by
  constructor
  · intro hp heq
    unfold collidingSpots
    rw [List.mem_filter]
    refine ⟨hs, ?_⟩
    rw [List.any_eq_true]
    exact ⟨p, hp, decide_eq_true (le_of_eq heq)⟩
  · intro hfar
    constructor
    · intro hmem
      obtain ⟨t, ht, hid, q, hq, hd⟩ := (mem_detectedSpotIds d spots coords s.id).mp hmem
      have : t = s := List.inj_on_of_nodup_map hnd ht hs hid
      subst this
      exact absurd hd (not_lt.mpr (hfar q hq))
    · intro hmem
      obtain ⟨_, q, hq, hd⟩ := (mem_runSafetyAnalysisDetected d spots coords s).mp hmem
      exact absurd hd (not_lt.mpr (hfar q hq))

/-- Counterexample to C4 as stated: a spot at distance exactly equal to the
collision threshold is not detected by the scoring components (their
comparison is strict). -/
theorem collision_threshold_counterexample :
    (fun _ _ => (500 : ℚ) : Distance)
        (spotCoord (BlackSpot.mk "y" 0 0 RiskLevel.Medium "hist" 1)) (Coord.mk 0 0)
      = COLLISION_THRESHOLD ∧
    (BlackSpot.mk "y" 0 0 RiskLevel.Medium "hist" 1).id ∉
      detectedSpotIds (fun _ _ => (500 : ℚ)) [Coord.mk 0 0]
        [BlackSpot.mk "y" 0 0 RiskLevel.Medium "hist" 1] ∧
    BlackSpot.mk "y" 0 0 RiskLevel.Medium "hist" 1 ∉
      runSafetyAnalysisDetected (fun _ _ => (500 : ℚ)) [Coord.mk 0 0]
        [BlackSpot.mk "y" 0 0 RiskLevel.Medium "hist" 1] := by
  refine ⟨rfl, ?_, ?_⟩
  · intro h
    obtain ⟨t, _, _, q, _, hd⟩ := (mem_detectedSpotIds (fun _ _ => (500 : ℚ))
      [BlackSpot.mk "y" 0 0 RiskLevel.Medium "hist" 1] [Coord.mk 0 0]
      (BlackSpot.mk "y" 0 0 RiskLevel.Medium "hist" 1).id).mp h
    norm_num [COLLISION_THRESHOLD] at hd
  · intro h
    obtain ⟨_, q, _, hd⟩ := (mem_runSafetyAnalysisDetected (fun _ _ => (500 : ℚ))
      [BlackSpot.mk "y" 0 0 RiskLevel.Medium "hist" 1] [Coord.mk 0 0]
      (BlackSpot.mk "y" 0 0 RiskLevel.Medium "hist" 1)).mp h
    norm_num [COLLISION_THRESHOLD] at hd

/-- Witness for C4 at an instance where the spot is exactly at the inclusive
threshold of the single route point. -/
theorem collision_threshold_witness :
    (([BlackSpot.mk "c" 0 0 RiskLevel.High "h" 1].map BlackSpot.id).Nodup) ∧
    BlackSpot.mk "c" 0 0 RiskLevel.High "h" 1 ∈
      [BlackSpot.mk "c" 0 0 RiskLevel.High "h" 1] ∧
    ((Coord.mk 0 0 ∈ [Coord.mk 0 0] →
      (fun _ _ => (50 : ℚ) : Distance)
          (spotCoord (BlackSpot.mk "c" 0 0 RiskLevel.High "h" 1)) (Coord.mk 0 0)
        = COLLISION_THRESHOLD_V1 →
      BlackSpot.mk "c" 0 0 RiskLevel.High "h" 1 ∈
        collidingSpots (fun _ _ => (50 : ℚ))
          [BlackSpot.mk "c" 0 0 RiskLevel.High "h" 1] [Coord.mk 0 0]) ∧
    ((∀ q ∈ [Coord.mk 0 0], COLLISION_THRESHOLD ≤
        (fun _ _ => (50 : ℚ) : Distance)
          (spotCoord (BlackSpot.mk "c" 0 0 RiskLevel.High "h" 1)) q) →
      (BlackSpot.mk "c" 0 0 RiskLevel.High "h" 1).id ∉
        detectedSpotIds (fun _ _ => (50 : ℚ)) [Coord.mk 0 0]
          [BlackSpot.mk "c" 0 0 RiskLevel.High "h" 1] ∧
      BlackSpot.mk "c" 0 0 RiskLevel.High "h" 1 ∉
        runSafetyAnalysisDetected (fun _ _ => (50 : ℚ)) [Coord.mk 0 0]
          [BlackSpot.mk "c" 0 0 RiskLevel.High "h" 1])) :=
  ⟨by decide, by decide,
    collision_threshold_boundary (fun _ _ => (50 : ℚ))
      [BlackSpot.mk "c" 0 0 RiskLevel.High "h" 1] [Coord.mk 0 0]
      (BlackSpot.mk "c" 0 0 RiskLevel.High "h" 1) (Coord.mk 0 0)
      (by decide) (by decide)⟩

/-- The comparator order on scored routes is transitive. -/
theorem routeLE_trans (a b c : ScoredRoute) (h1 : routeLE a b) (h2 : routeLE b c) :
    routeLE a c := by
  unfold routeLE at h1 h2 ⊢
  by_cases hab : a.riskScore = b.riskScore
  · rw [if_pos hab] at h1
    by_cases hbc : b.riskScore = c.riskScore
    · rw [if_pos hbc] at h2
      rw [if_pos (hab.trans hbc)]
      exact decide_eq_true
        (le_trans (of_decide_eq_true h1) (of_decide_eq_true h2))
    · rw [if_neg hbc] at h2
      have hlt : b.riskScore < c.riskScore := of_decide_eq_true h2
      have hlt' : a.riskScore < c.riskScore := hab ▸ hlt
      rw [if_neg (ne_of_lt hlt')]
      exact decide_eq_true hlt'
  · rw [if_neg hab] at h1
    have hlt1 : a.riskScore < b.riskScore := of_decide_eq_true h1
    by_cases hbc : b.riskScore = c.riskScore
    · have hlt : a.riskScore < c.riskScore := hbc ▸ hlt1
      rw [if_neg (ne_of_lt hlt)]
      exact decide_eq_true hlt
    · rw [if_neg hbc] at h2
      have hlt2 : b.riskScore < c.riskScore := of_decide_eq_true h2
      have hlt : a.riskScore < c.riskScore := lt_trans hlt1 hlt2
      rw [if_neg (ne_of_lt hlt)]
      exact decide_eq_true hlt

/-- The comparator order on scored routes is total. -/
theorem routeLE_total (a b : ScoredRoute) : routeLE a b || routeLE b a := by
  unfold routeLE
  by_cases hab : a.riskScore = b.riskScore
  · rw [if_pos hab, if_pos hab.symm]
    rcases le_total a.duration b.duration with h | h
    · rw [decide_eq_true h]
      simp
    · rw [decide_eq_true h]
      simp
  · rw [if_neg hab, if_neg (Ne.symm hab)]
    rcases lt_or_gt_of_ne hab with h | h
    · rw [decide_eq_true h]
      simp
    · rw [decide_eq_true h]
      simp

/-- The comparator order on scored routes is reflexive. -/
theorem routeLE_refl (a : ScoredRoute) : routeLE a a := by
  unfold routeLE
  rw [if_pos rfl]
  exact decide_eq_true (le_refl a.duration)

/-- C3: for a non-empty candidate list, the sorted routes are a permutation
of the candidates ordered by risk score ascending with ties broken by
duration ascending, and the default-selected route (the head, index 0) has
minimal risk score and, among routes of equal risk score, minimal
duration. -/
theorem sortedRoutes_spec (routes : List ScoredRoute) (h : routes ≠ []) :
    (sortRoutes routes).Perm routes ∧
    (sortRoutes routes).Pairwise (fun a b => routeLE a b = true) ∧
    ∃ best, (sortRoutes routes).head? = some best ∧ best ∈ routes ∧
      ∀ r ∈ routes, best.riskScore ≤ r.riskScore ∧
        (best.riskScore = r.riskScore → best.duration ≤ r.duration) := by
  have hperm : (sortRoutes routes).Perm routes := List.mergeSort_perm routes routeLE
  have hsorted : (sortRoutes routes).Pairwise (fun a b => routeLE a b = true) :=
    List.sorted_mergeSort routeLE_trans routeLE_total routes
  have hne : sortRoutes routes ≠ [] := by
    intro hnil
    rw [hnil] at hperm
    exact h hperm.nil_eq.symm
  obtain ⟨best, tail, heq⟩ : ∃ b t, sortRoutes routes = b :: t := by
    cases hsr : sortRoutes routes with
    | nil => exact absurd hsr hne
    | cons b t => exact ⟨b, t, rfl⟩
  refine ⟨hperm, hsorted, best, by rw [heq]; rfl, ?_, ?_⟩
  · exact hperm.mem_iff.mp (by rw [heq]; exact List.mem_cons_self _ _)
  · intro r hr
    have hrs : r ∈ sortRoutes routes := hperm.mem_iff.mpr hr
    have hle : routeLE best r = true := by
      rw [heq] at hrs
      rcases List.mem_cons.mp hrs with rfl | hrt
      · exact routeLE_refl r
      · have hp := hsorted
        rw [heq] at hp
        exact (List.pairwise_cons.mp hp).1 r hrt
    unfold routeLE at hle
    by_cases hab : best.riskScore = r.riskScore
    · rw [if_pos hab] at hle
      exact ⟨le_of_eq hab, fun _ => of_decide_eq_true hle⟩
    · rw [if_neg hab] at hle
      have hlt := of_decide_eq_true hle
      exact ⟨le_of_lt hlt, fun he => absurd he hab⟩

/-- Witness for C3 at a two-route instance with distinct risk scores. -/
theorem sortedRoutes_witness :
    ([ScoredRoute.mk 5 10, ScoredRoute.mk 0 3] : List ScoredRoute) ≠ [] ∧
    ((sortRoutes [ScoredRoute.mk 5 10, ScoredRoute.mk 0 3]).Perm
        [ScoredRoute.mk 5 10, ScoredRoute.mk 0 3] ∧
    (sortRoutes [ScoredRoute.mk 5 10, ScoredRoute.mk 0 3]).Pairwise
        (fun a b => routeLE a b = true) ∧
    ∃ best, (sortRoutes [ScoredRoute.mk 5 10, ScoredRoute.mk 0 3]).head? = some best ∧
      best ∈ [ScoredRoute.mk 5 10, ScoredRoute.mk 0 3] ∧
      ∀ r ∈ [ScoredRoute.mk 5 10, ScoredRoute.mk 0 3],
        best.riskScore ≤ r.riskScore ∧
        (best.riskScore = r.riskScore → best.duration ≤ r.duration)) :=
  ⟨by simp, sortedRoutes_spec [ScoredRoute.mk 5 10, ScoredRoute.mk 0 3] (by simp)⟩

/-- Appending through a fold equals appending the concatenation of the
pieces. -/
theorem foldl_append_concat (f : BlackSpot → String) :
    ∀ (l : List BlackSpot) (init : String),
      l.foldl (fun acc s => acc ++ f s) init = init ++ concatStrings (l.map f) := by
  intro l
  induction l with
  | nil =>
    intro init
    simp [concatStrings]
  | cons s rest ih =>
    intro init
    rw [List.foldl_cons, ih, List.map_cons]
    show init ++ f s ++ concatStrings (rest.map f)
      = init ++ concatStrings (f s :: rest.map f)
    rw [String.append_assoc]
    congr 1

/-- C5: the briefing requester always returns a string; the model's briefing
when the generative call succeeds, and on failure the hardcoded fallback —
the generic clear message when the black-spot list is empty, otherwise the
caution header followed by one bullet line per black spot, each bullet
containing the spot's risk level and accident history. -/
theorem getSafetyBriefing_spec (modelResult : Option String)
    (spots : List BlackSpot) :
    (∀ s, modelResult = some s → getSafetyBriefing modelResult spots = s) ∧
    (modelResult = none → spots = [] →
      getSafetyBriefing modelResult spots = genericClearMessage) ∧
    (modelResult = none → spots ≠ [] →
      getSafetyBriefing modelResult spots
        = fallbackHeader spots ++ concatStrings (spots.map fallbackBulletLine) ∧
      ∀ spot ∈ spots,
        (∃ a b, fallbackBulletLine spot = a ++ riskLevelString spot.risk_level ++ b) ∧
        (∃ a b, fallbackBulletLine spot = a ++ spot.accident_history ++ b)) := by
  refine ⟨?_, ?_, ?_⟩
  · rintro s rfl
    rfl
  · rintro rfl rfl
    rfl
  · rintro rfl hne
    constructor
    · unfold getSafetyBriefing
      rw [if_neg (by simpa using hne)]
      exact foldl_append_concat fallbackBulletLine spots (fallbackHeader spots)
    · intro spot _
      constructor
      · refine ⟨"â€¢ A **",
          " risk zone** with a history of: *" ++ spot.accident_history ++ "*.\n", ?_⟩
        simp [fallbackBulletLine, String.append_assoc]
      · refine ⟨"â€¢ A **" ++ riskLevelString spot.risk_level
            ++ " risk zone** with a history of: *", "*.\n", ?_⟩
        simp [fallbackBulletLine, String.append_assoc]

/-- Witness for C5 at a failed model call with one Medium spot. -/
theorem getSafetyBriefing_witness :
    (∀ s, (none : Option String) = some s →
      getSafetyBriefing none [BlackSpot.mk "w" 1 2 RiskLevel.Medium "skid" 3] = s) ∧
    ((none : Option String) = none →
      ([BlackSpot.mk "w" 1 2 RiskLevel.Medium "skid" 3] : List BlackSpot) = [] →
      getSafetyBriefing none [BlackSpot.mk "w" 1 2 RiskLevel.Medium "skid" 3]
        = genericClearMessage) ∧
    ((none : Option String) = none →
      ([BlackSpot.mk "w" 1 2 RiskLevel.Medium "skid" 3] : List BlackSpot) ≠ [] →
      getSafetyBriefing none [BlackSpot.mk "w" 1 2 RiskLevel.Medium "skid" 3]
        = fallbackHeader [BlackSpot.mk "w" 1 2 RiskLevel.Medium "skid" 3]
          ++ concatStrings
            ([BlackSpot.mk "w" 1 2 RiskLevel.Medium "skid" 3].map fallbackBulletLine) ∧
      ∀ spot ∈ [BlackSpot.mk "w" 1 2 RiskLevel.Medium "skid" 3],
        (∃ a b, fallbackBulletLine spot = a ++ riskLevelString spot.risk_level ++ b) ∧
        (∃ a b, fallbackBulletLine spot = a ++ spot.accident_history ++ b)) :=
  getSafetyBriefing_spec none [BlackSpot.mk "w" 1 2 RiskLevel.Medium "skid" 3]

/-- The intermediate haversine quantity is symmetric in its two points. -/
theorem haversineA_symm (p q : GeoPoint) : haversineA p q = haversineA q p := by
  unfold haversineA
  have hlat : toRad (p.lat - q.lat) / 2 = -(toRad (q.lat - p.lat) / 2) := by
    unfold toRad
    ring
  have hlon : toRad (p.lon - q.lon) / 2 = -(toRad (q.lon - p.lon) / 2) := by
    unfold toRad
    ring
  rw [hlat, hlon, Real.sin_neg, Real.sin_neg]
  ring

/-- The two-argument arctangent is non-negative on the closed first
quadrant. -/
theorem atan2_nonneg {y x : ℝ} (hy : 0 ≤ y) (hx : 0 ≤ x) : 0 ≤ atan2 y x := by
  unfold atan2
  by_cases h1 : 0 < x
  · rw [if_pos h1]
    have hdiv : (0 : ℝ) ≤ y / x := div_nonneg hy (le_of_lt h1)
    calc (0 : ℝ) = Real.arctan 0 := Real.arctan_zero.symm
    _ ≤ Real.arctan (y / x) := Real.arctan_strictMono.monotone hdiv
  · rw [if_neg h1]
    have hx0 : x = 0 := le_antisymm (not_lt.mp h1) hx
    rw [if_neg (by rw [hx0]; exact lt_irrefl 0)]
    by_cases h2 : 0 < y
    · rw [if_pos h2]
      exact le_of_lt Real.pi_div_two_pos
    · rw [if_neg h2, if_neg (not_lt.mpr hy)]

/-- C6: the haversine great-circle distance is symmetric and
non-negative. -/
theorem haversineDistance_symm_nonneg (p q : GeoPoint) :
    haversineDistance p q = haversineDistance q p ∧ 0 ≤ haversineDistance p q := by
  constructor
  · unfold haversineDistance
    rw [haversineA_symm p q]
  · unfold haversineDistance
    have h := atan2_nonneg (Real.sqrt_nonneg (haversineA p q))
      (Real.sqrt_nonneg (1 - haversineA p q))
    have h2 : (0 : ℝ) ≤ 2 * atan2 (Real.sqrt (haversineA p q))
        (Real.sqrt (1 - haversineA p q)) := by linarith
    have h6 : (0 : ℝ) ≤ 6371000 := by norm_num
    exact mul_nonneg h6 h2

/-- Witness for C8 at a pair of in-range parsed coordinates. -/
theorem handleSubmitCoordinates_witness :
    (handleSubmitCoordinates (some 10) (some 20) = CoordSubmitResult.processed 10 20 ↔
      ((some (10 : ℚ)) = some 10 ∧ (some (20 : ℚ)) = some 20 ∧
        -90 ≤ (10 : ℚ) ∧ (10 : ℚ) ≤ 90 ∧ -180 ≤ (20 : ℚ) ∧ (20 : ℚ) ≤ 180)) ∧
    (handleSubmitCoordinates (some 10) (some 20) = CoordSubmitResult.invalidCoordinates ↔
      ¬ (∃ x y : ℚ, handleSubmitCoordinates (some 10) (some 20)
        = CoordSubmitResult.processed x y)) :=
  handleSubmitCoordinates_validates (some 10) (some 20) 10 20

/-- Witness for C9 at a single far-away spot. -/
theorem processNewSpotAddition_witness :
    ((∃ s, processNewSpotAddition taxicab [BlackSpot.mk "z" 900 900 RiskLevel.High "h" 1] 0 0
        = SpotAdditionResult.confirmExisting s ∧
        s ∈ [BlackSpot.mk "z" 900 900 RiskLevel.High "h" 1] ∧
        taxicab (spotCoord s) ⟨0, 0⟩ < NEARBY_THRESHOLD) ↔
      (∃ s ∈ [BlackSpot.mk "z" 900 900 RiskLevel.High "h" 1],
        taxicab (spotCoord s) ⟨0, 0⟩ < NEARBY_THRESHOLD)) ∧
    (processNewSpotAddition taxicab [BlackSpot.mk "z" 900 900 RiskLevel.High "h" 1] 0 0
        = SpotAdditionResult.proposeNew 0 0 ↔
      ∀ s ∈ [BlackSpot.mk "z" 900 900 RiskLevel.High "h" 1],
        ¬ taxicab (spotCoord s) ⟨0, 0⟩ < NEARBY_THRESHOLD) :=
  processNewSpotAddition_nearby taxicab [BlackSpot.mk "z" 900 900 RiskLevel.High "h" 1] 0 0

end NaviSafe
